import Mathlib

/-!
Verification of `hashmatch.py`: a duplicate-file detector that reads, for
each directory in an argument list, a `.hashcheck` manifest whose lines are
`<hash> <length> <path>`, aggregates records into a dict keyed by hash, and
prints a tab-separated report line for each new record that matches an
earlier record with the same hash and the same length token.

Strings are modelled as `List Char`; the Python string primitives used by
the script (`find`, slicing with negative indices, `lstrip`, `rstrip`,
`os.path.join`, `os.path.dirname`, `os.path.basename`) are embedded with
their Python semantics.  File I/O is modelled by supplying each directory's
manifest as an optional list of lines (as Python file iteration yields
them, i.e. each line normally ending in a newline character); `none` models
a failed `open`.
-/

abbrev Chars := List Char

/-- One hash bucket: the ordered list of `(length, path)` pairs already
seen for a given hash (`files[filehash]` in the script). -/
abbrev Bucket := List (Chars × Chars)

/-- The global dict `files`, modelled as an association list with unique
keys; new keys are appended at the end. -/
abbrev Files := List (Chars × Bucket)

/-- Python slice-index normalisation: for a sequence of length `n`,
a slice bound `i` becomes `max (n + i) 0` when negative, `min i n`
otherwise. -/
def pySliceIdx (n : Nat) (i : Int) : Nat :=
  if i < 0 then ((n : Int) + i).toNat else min i.toNat n

/-- Python `s[a:b]`. -/
def pySlice (l : Chars) (a b : Int) : Chars :=
  (l.take (pySliceIdx l.length b)).drop (pySliceIdx l.length a)

/-- Python `s[a:]`. -/
def pySliceFrom (l : Chars) (a : Int) : Chars :=
  l.drop (pySliceIdx l.length a)

/-- Python `s.find(c, start)`: the first index `≥ start` holding `c`,
or `-1` when there is none. -/
def pyFind (l : Chars) (c : Char) (start : Nat) : Int :=
  match (l.drop start).findIdx? (· == c) with
  | some i => ((start + i : Nat) : Int)
  | none => -1

/-- Python `s.lstrip(cs)`: drop leading characters belonging to the set
`cs` (note: a character set, not a prefix). -/
def pyLstrip (cs : Chars) (l : Chars) : Chars :=
  l.dropWhile (fun c => cs.contains c)

/-- Python `s.rstrip(cs)`: drop trailing characters belonging to the set
`cs`. -/
def pyRstrip (cs : Chars) (l : Chars) : Chars :=
  ((l.reverse.dropWhile (fun c => cs.contains c))).reverse

/-- Python `os.path.join(a, b)` (POSIX, two arguments). -/
def pyJoin (a b : Chars) : Chars :=
  if b.head? = some '/' then b
  else if a = [] ∨ a.getLast? = some '/' then a ++ b
  else a ++ '/' :: b

/-- Python `s.rfind(c)`: the last index holding `c`, or `-1`. -/
def pyRfind (l : Chars) (c : Char) : Int :=
  match l.reverse.findIdx? (· == c) with
  | some i => ((l.length - 1 - i : Nat) : Int)
  | none => -1

/-- Python `os.path.dirname` (POSIX). -/
def pyDirname (p : Chars) : Chars :=
  let head := p.take (pyRfind p '/' + 1).toNat
  if head ≠ [] ∧ head.any (fun c => c ≠ '/') then pyRstrip ['/'] head
  else head

/-- Python `os.path.basename` (POSIX). -/
def pyBasename (p : Chars) : Chars :=
  p.drop (pyRfind p '/' + 1).toNat

/-- Field splitting of one manifest line (script lines 42-46):
`sp1 = line.find(' ')`, `sp2 = line.find(' ', sp1+1)`,
`filehash = line[0:sp1]`, `filelength = line[sp1+1:sp2]`,
`filepath = line[sp2+1:]`. -/
def parseFields (line : Chars) : Chars × Chars × Chars :=
  let sp1 := pyFind line ' ' 0
  let sp2 := pyFind line ' ' (sp1 + 1).toNat
  (pySlice line 0 sp1, pySlice line (sp1 + 1) sp2, pySliceFrom line (sp2 + 1))

/-- Path construction of script line 47:
`os.path.join(dir, filepath.lstrip('./').rstrip('\n'))`. -/
def normalizePath (dir rawpath : Chars) : Chars :=
  pyJoin dir (pyRstrip ['\n'] (pyLstrip ['.', '/'] rawpath))

/-- The printed match line of script lines 63-67: nine tab-separated
fields, where fields holding index 1 describe the record currently being
processed and fields holding index 2 describe the earlier bucket entry. -/
def mkReportLine (filehash len1 len2 path1 path2 : Chars) : Chars :=
  List.intercalate ['\t']
    [filehash, len1, len2, pyDirname path1, pyDirname path2,
     pyBasename path1, pyBasename path2, path1, path2]

/-- `filehash in files` / `files[filehash]` on the association-list model
of the dict. -/
def lookupBucket : Files → Chars → Option Bucket
  | [], _ => none
  | (k, b) :: rest, h => if k = h then some b else lookupBucket rest h

/-- `files[filehash].append(entry)`: append to the bucket of the (unique)
matching key. -/
def appendEntry : Files → Chars → Chars × Chars → Files
  | [], _, _ => []
  | (k, b) :: rest, h, e =>
    if k = h then (k, b ++ [e]) :: rest else (k, b) :: appendEntry rest h e

/-- Processing of one parsed record (script lines 52-75): skip
zero-length records; otherwise scan the pre-existing bucket for the first
entry with an equal length token, report it, and append the record. -/
def processRecord (files : Files) (filehash filelength filepath : Chars) :
    Files × Option Chars :=
  if filelength = ['0'] then (files, none)
  else
    match lookupBucket files filehash with
    | some bucket =>
      (appendEntry files filehash (filelength, filepath),
       (bucket.find? (fun m => m.1 == filelength)).map
         (fun m => mkReportLine filehash filelength m.1 filepath m.2))
    | none => (files ++ [(filehash, [(filelength, filepath)])], none)

/-- One iteration of the line loop of `hashcheck`. -/
def processLine (dir : Chars) (files : Files) (line : Chars) :
    Files × Option Chars :=
  let f := parseFields line
  processRecord files f.1 f.2.1 (normalizePath dir f.2.2)

/-- The full line loop: returns the final dict and the emitted match
lines, in emission order. -/
def processLines (dir : Chars) : Files → List Chars → Files × List Chars
  | files, [] => (files, [])
  | files, line :: rest =>
    let r := processLine dir files line
    let rs := processLines dir r.1 rest
    (rs.1, r.2.toList ++ rs.2)

/-- One line written to standard output: either a diagnostic or a match
report. -/
inductive OutLine
  | diag : Chars → OutLine
  | rep : Chars → OutLine
deriving DecidableEq

/-- The `hashcheck(dir)` function (script lines 29-75).  A manifest of
`none` models a failed `open` (the bare `except` branch): the dict is
untouched and only the `no .hashcheck found` diagnostic is emitted. -/
def hashcheck (files : Files) (dir : Chars) (manifest : Option (List Chars)) :
    Files × List OutLine :=
  match manifest with
  | none => (files, [OutLine.diag (dir ++ ": no .hashcheck found".toList)])
  | some lines =>
    let r := processLines dir files lines
    (r.1, OutLine.diag (dir ++ ": processing .hashcheck".toList)
            :: r.2.map OutLine.rep)

/-- The main loop (script lines 82-86), threading the dict through the
directories in order; each directory argument is `rstrip('/')`-ed. -/
def mainLoop : Files → List (Chars × Option (List Chars)) → Files × List OutLine
  | files, [] => (files, [])
  | files, (d, m) :: rest =>
    let r := hashcheck files (pyRstrip ['/'] d) m
    let rr := mainLoop r.1 rest
    (rr.1, r.2 ++ rr.2)

/-- A whole run starting from the empty dict. -/
def runAll (dirs : List (Chars × Option (List Chars))) : Files × List OutLine :=
  mainLoop [] dirs

/-- The match lines among the output, in order. -/
def matchLines (out : List OutLine) : List Chars :=
  out.filterMap (fun o => match o with | OutLine.rep s => some s | _ => none)

/-! ## Claim theorems -/

/-- Claim C1, as stated, is false: in the end-to-end scenario with
`A/.hashcheck` holding `h1 100 ./x.bin` and `B/.hashcheck` holding
`h1 100 ./y.bin`, the single emitted match line is NOT
`h1\t100\t100\tA\tB\tx.bin\ty.bin\tA/x.bin\tB/y.bin`: the script binds
`(len1, path1)` to the record currently being processed (from `B`), so the
`A`-derived fields come second, not first. -/
theorem endToEndScenario_counterexample :
    matchLines (runAll
      [("A".toList, some ["h1 100 ./x.bin\n".toList]),
       ("B".toList, some ["h1 100 ./y.bin\n".toList])]).2 ≠
    ["h1\t100\t100\tA\tB\tx.bin\ty.bin\tA/x.bin\tB/y.bin".toList] := by
  decide

/-- Claim C1 (amended): in the end-to-end scenario the run emits exactly
one match line, and that line is
`h1\t100\t100\tB\tA\ty.bin\tx.bin\tB/y.bin\tA/x.bin` — the fields of the
record being processed (from `B`) come first and the earlier-inserted
entry (from `A`) second. -/
theorem endToEndScenario :
    matchLines (runAll
      [("A".toList, some ["h1 100 ./x.bin\n".toList]),
       ("B".toList, some ["h1 100 ./y.bin\n".toList])]).2 =
    ["h1\t100\t100\tB\tA\ty.bin\tx.bin\tB/y.bin\tA/x.bin".toList] := by
  decide

/-- Claim C2: the code violates the claim.  For the manifest line
`abc123 10 .hidden` in directory `data`, `lstrip('./')` removes every
leading `.` and `/` character — not a single `./` prefix — so the code
produces `data/hidden` where the claim (and the script's own header
comment, *replacing the leading './'*) requires `data/.hidden`. -/
theorem lstripOverstrips :
    normalizePath "data".toList (parseFields "abc123 10 .hidden\n".toList).2.2
      = "data/hidden".toList ∧
    normalizePath "data".toList (parseFields "abc123 10 .hidden\n".toList).2.2
      ≠ "data/.hidden".toList := by
  constructor <;> decide

/-- Helper: `find?` over a bucket whose prefix contains no match returns
the first matching entry. -/
lemma find?_first_entry (pre : Bucket) (e : Chars × Chars) (rest : Bucket)
    (len : Chars) (hpre : ∀ x ∈ pre, x.1 ≠ len) (he : e.1 = len) :
    (pre ++ e :: rest).find? (fun m => m.1 == len) = some e := by
  induction pre with
  | nil => simp [List.find?, he]
  | cons a as ih =>
    have ha : a.1 ≠ len := hpre a (List.mem_cons_self a as)
    have ih2 := ih (fun x hx => hpre x (List.mem_cons_of_mem a hx))
    have hb : (a.1 == len) = false := beq_eq_false_iff_ne.mpr ha
    simp only [List.cons_append, List.find?, hb]
    exact ih2

/-- Claim C3: first-match-only.  For a record whose hash is already in
the index, if the bucket decomposes as `pre ++ e :: rest` where no entry
of `pre` has the record's length token and `e` does, then processing the
record produces exactly one report, pairing the record with `e` (the
first matching entry, so scanning stops there). -/
theorem firstMatchOnly (files : Files) (h len path : Chars)
    (pre rest : Bucket) (e : Chars × Chars)
    (hlen : len ≠ ['0'])
    (hbkt : lookupBucket files h = some (pre ++ e :: rest))
    (hpre : ∀ x ∈ pre, x.1 ≠ len) (he : e.1 = len) :
    (processRecord files h len path).2 =
      some (mkReportLine h len e.1 path e.2) := by
  simp [processRecord, if_neg hlen, hbkt,
    find?_first_entry pre e rest len hpre he]

/-- Witness for C3 at the spec's own example: a bucket with lengths
`[5, 5, 7]` in insertion order plus a new record of length `5` yields
exactly one report, paired with the first length-5 entry `p1`. -/
theorem firstMatchOnly_w :
    (processRecord
      [("h".toList,
        [("5".toList, "p1".toList), ("5".toList, "p2".toList),
         ("7".toList, "p3".toList)])]
      "h".toList "5".toList "q".toList).2 =
    some (mkReportLine "h".toList "5".toList "5".toList
      "q".toList "p1".toList) :=
  firstMatchOnly _ _ _ _ []
    [("5".toList, "p2".toList), ("7".toList, "p3".toList)]
    ("5".toList, "p1".toList)
    (by decide) (by decide) (by decide) (by decide)

/-- Claim C5: length compared as text.  If no entry of the record's
bucket has a length token string-equal to the record's, no report is
produced — in particular records with tokens `10` and `010` never match
even though they share a bucket. -/
theorem lengthTextEquality (files : Files) (h len path : Chars)
    (bucket : Bucket)
    (hbkt : lookupBucket files h = some bucket)
    (hnone : ∀ x ∈ bucket, x.1 ≠ len) :
    (processRecord files h len path).2 = none := by
  by_cases h0 : len = ['0']
  · simp [processRecord, h0]
  · have : bucket.find? (fun m => m.1 == len) = none := by
      rw [List.find?_eq_none]
      intro x hx
      simpa using hnone x hx
    simp [processRecord, h0, hbkt, this]

/-- Witness for C5: hash `h` already holds an entry with length token
`10`; a new record with token `010` produces no report. -/
theorem lengthTextEquality_w :
    (processRecord [("h".toList, [("10".toList, "p".toList)])]
      "h".toList "010".toList "q".toList).2 = none :=
  lengthTextEquality _ _ _ _ [("10".toList, "p".toList)]
    (by decide) (by decide)

/-- Claim C6: check-before-append.  For a non-zero-length record: when
the hash is absent, a new singleton bucket is created and no report is
produced; when it is present, the dict becomes `appendEntry` of the old
one and the (optional) report is computed from the bucket's pre-append
contents — any emitted report pairs the record with an entry that was
already in the bucket, so a record is never checked against itself. -/
theorem checkBeforeAppend (files : Files) (h len path : Chars)
    (hlen : len ≠ ['0']) :
    (lookupBucket files h = none →
      processRecord files h len path =
        (files ++ [(h, [(len, path)])], none)) ∧
    (∀ bucket, lookupBucket files h = some bucket →
      processRecord files h len path =
        (appendEntry files h (len, path),
         (bucket.find? (fun m => m.1 == len)).map
           (fun m => mkReportLine h len m.1 path m.2)) ∧
      ∀ r, (processRecord files h len path).2 = some r →
        ∃ e ∈ bucket, r = mkReportLine h len e.1 path e.2) := by
  refine ⟨fun hnone => ?_, fun bucket hsome => ?_⟩
  · simp [processRecord, hlen, hnone]
  · constructor
    · simp [processRecord, hlen, hsome]
    · intro r hr
      simp only [processRecord, if_neg hlen, hsome] at hr
      rcases hfind : bucket.find? (fun m => m.1 == len) with _ | e
      · simp [hfind] at hr
      · refine ⟨e, List.mem_of_find?_eq_some hfind, ?_⟩
        rw [hfind] at hr
        simpa using hr.symm

/-- Witness for C6: both branches at concrete inputs — an unseen hash
creates a singleton bucket with no report, and a seen hash appends after
scanning the old bucket. -/
theorem checkBeforeAppend_w :
    processRecord [] "h".toList "5".toList "p".toList =
      ([("h".toList, [("5".toList, "p".toList)])], none) ∧
    processRecord [("h".toList, [("7".toList, "p".toList)])]
        "h".toList "5".toList "q".toList =
      ([("h".toList, [("7".toList, "p".toList), ("5".toList, "q".toList)])],
       none) :=
  ⟨(checkBeforeAppend [] "h".toList "5".toList "p".toList (by decide)).1
     (by decide),
   by
    have := ((checkBeforeAppend
      [("h".toList, [("7".toList, "p".toList)])]
      "h".toList "5".toList "q".toList (by decide)).2
      [("7".toList, "p".toList)] (by decide)).1
    rw [this]; decide⟩

/-- Claim C7: ManifestMissing recovery.  When a directory's manifest
cannot be opened (modelled `none`), exactly one diagnostic line naming
the directory is emitted, the dict reaching the remaining directories is
unchanged, and processing continues with the rest of the argument
list. -/
theorem manifestMissingRecovery (files : Files) (d : Chars)
    (rest : List (Chars × Option (List Chars))) :
    mainLoop files ((d, none) :: rest) =
      ((mainLoop files rest).1,
       OutLine.diag (pyRstrip ['/'] d ++ ": no .hashcheck found".toList)
         :: (mainLoop files rest).2) := rfl

/-- Claim C9: report field ordering.  Whenever a report is emitted, the
nine tab-separated fields are: hash, then length/dirname/basename/path
of the record currently being processed (fields 2, 4, 6, 8), each
immediately followed by the corresponding field of the earlier-inserted
bucket entry it matched (fields 3, 5, 7, 9). -/
theorem reportFieldOrder (files : Files) (h len path : Chars)
    (bucket : Bucket) (e : Chars × Chars)
    (hlen : len ≠ ['0'])
    (hbkt : lookupBucket files h = some bucket)
    (hfind : bucket.find? (fun m => m.1 == len) = some e) :
    (processRecord files h len path).2 =
      some (List.intercalate ['\t']
        [h, len, e.1, pyDirname path, pyDirname e.2,
         pyBasename path, pyBasename e.2, path, e.2]) := by
  simp [processRecord, hlen, hbkt, hfind, mkReportLine]

/-- Witness for C9 at a concrete record: the current record's fields
(`B/y`, inserted second) come first, the earlier entry's (`A/x`)
second. -/
theorem reportFieldOrder_w :
    (processRecord [("h1".toList, [("9".toList, "A/x".toList)])]
      "h1".toList "9".toList "B/y".toList).2 =
    some (List.intercalate ['\t']
      ["h1".toList, "9".toList, "9".toList, pyDirname "B/y".toList,
       pyDirname "A/x".toList, pyBasename "B/y".toList,
       pyBasename "A/x".toList, "B/y".toList, "A/x".toList]) :=
  reportFieldOrder _ _ _ _ [("9".toList, "A/x".toList)]
    ("9".toList, "A/x".toList) (by decide) (by decide) (by decide)

/-- No bucket entry carries the length token `0`. -/
def NoZero (files : Files) : Prop :=
  ∀ hb ∈ files, ∀ e ∈ hb.2, e.1 ≠ ['0']

lemma noZero_appendEntry (h len path : Chars) (hlen : len ≠ ['0']) :
    ∀ files : Files, NoZero files →
      NoZero (appendEntry files h (len, path)) := by
  intro files
  induction files with
  | nil => intro _; simp [NoZero, appendEntry]
  | cons kb rest ih =>
    intro hf
    obtain ⟨k, b⟩ := kb
    have hrest : NoZero rest := fun hb hm => hf hb (List.mem_cons_of_mem _ hm)
    have hb0 : ∀ e ∈ b, e.1 ≠ ['0'] := hf (k, b) (List.mem_cons_self _ _)
    by_cases hk : k = h
    · simp only [appendEntry, if_pos hk]
      intro hb hm e he
      rcases List.mem_cons.mp hm with rfl | hm2
      · rcases List.mem_append.mp he with h1 | h2
        · exact hb0 e h1
        · rw [List.mem_singleton] at h2
          subst h2; exact hlen
      · exact hrest hb hm2 e he
    · simp only [appendEntry, if_neg hk]
      intro hb hm e he
      rcases List.mem_cons.mp hm with rfl | hm2
      · exact hb0 e he
      · exact ih hrest hb hm2 e he

lemma noZero_processRecord (files : Files) (h len path : Chars)
    (hf : NoZero files) : NoZero (processRecord files h len path).1 := by
  by_cases h0 : len = ['0']
  · simpa [processRecord, h0] using hf
  · rcases hl : lookupBucket files h with _ | bucket
    · simp only [processRecord, if_neg h0, hl]
      intro hb hm e he
      rcases List.mem_append.mp hm with h1 | h2
      · exact hf hb h1 e he
      · rw [List.mem_singleton] at h2
        subst h2
        rw [List.mem_singleton] at he
        subst he; exact h0
    · simp only [processRecord, if_neg h0, hl]
      exact noZero_appendEntry h len path h0 files hf

lemma noZero_processLines (dir : Chars) :
    ∀ (lines : List Chars) (files : Files), NoZero files →
      NoZero (processLines dir files lines).1 := by
  intro lines
  induction lines with
  | nil => intro files hf; simpa [processLines] using hf
  | cons line rest ih =>
    intro files hf
    simp only [processLines]
    exact ih _ (noZero_processRecord _ _ _ _ hf)

lemma noZero_hashcheck (files : Files) (dir : Chars)
    (manifest : Option (List Chars)) (hf : NoZero files) :
    NoZero (hashcheck files dir manifest).1 := by
  rcases manifest with _ | lines
  · simpa [hashcheck] using hf
  · simp only [hashcheck]
    exact noZero_processLines dir lines files hf

lemma noZero_mainLoop :
    ∀ (dirs : List (Chars × Option (List Chars))) (files : Files),
      NoZero files → NoZero (mainLoop files dirs).1 := by
  intro dirs
  induction dirs with
  | nil => intro files hf; simpa [mainLoop] using hf
  | cons dm rest ih =>
    intro files hf
    obtain ⟨d, m⟩ := dm
    simp only [mainLoop]
    exact ih _ (noZero_hashcheck files (pyRstrip ['/'] d) m hf)

/-- Claim C4: zero-length exclusion.  Processing a record with length
token `0` is a no-op (no report, index unchanged), and consequently in
any whole run no bucket ever holds an entry with length token `0`. -/
theorem zeroLengthExclusion :
    (∀ (files : Files) (h path : Chars),
      processRecord files h ['0'] path = (files, none)) ∧
    (∀ (dirs : List (Chars × Option (List Chars))) hb,
      hb ∈ (runAll dirs).1 → ∀ e ∈ hb.2, e.1 ≠ ['0']) := by
  constructor
  · intro files h path; simp [processRecord]
  · intro dirs hb hm e he
    exact noZero_mainLoop dirs [] (by simp [NoZero]) hb hm e he

/-- Witness for C4: a concrete zero-length record is a no-op, and in the
run over a one-line manifest `h 5 ./a` the surviving bucket entry has a
length token different from `0`. -/
theorem zeroLengthExclusion_w :
    processRecord [] "h".toList "0".toList "p".toList = ([], none) ∧
    ("5".toList : Chars) ≠ "0".toList :=
  ⟨zeroLengthExclusion.1 [] "h".toList "p".toList,
   zeroLengthExclusion.2 [("A".toList, some ["h 5 ./a\n".toList])]
     ("h".toList, [("5".toList, "A/a".toList)]) (by decide)
     ("5".toList, "A/a".toList) (by decide)⟩

lemma pyFind_eq_neg_one (l : Chars) (hm : ' ' ∉ l) :
    pyFind l ' ' 0 = -1 := by
  have : l.findIdx? (· == ' ') = none := by
    rw [List.findIdx?_eq_none_iff]
    intro x hx
    exact beq_eq_false_iff_ne.mpr (fun hxe => hm (hxe ▸ hx))
  simp [pyFind, this]

lemma pySlice_zero_negOne (l : Chars) : pySlice l 0 (-1) = l.dropLast := by
  have hb : pySliceIdx l.length (-1) = l.length - 1 := by
    simp only [pySliceIdx, if_pos (by norm_num : (-1 : Int) < 0)]
    omega
  have ha : pySliceIdx l.length 0 = 0 := by simp [pySliceIdx]
  rw [pySlice, hb, ha, List.drop_zero, List.dropLast_eq_take]

lemma pySliceFrom_zero (l : Chars) : pySliceFrom l 0 = l := by
  simp [pySliceFrom, pySliceIdx]

/-- Claim C10: total parsing of space-free lines.  Parsing is a total
function; on a line containing no space both separator searches yield
`-1`, so the hash and length fields each equal the line with its final
character removed and the raw path field is the whole line.  Moreover an
empty manifest line (the bare newline Python file iteration yields)
produces a record with empty hash and empty length that is indexed and
matches other empty lines: a manifest of two empty lines emits exactly
one match line. -/
theorem spaceFreeTotalParse :
    (∀ line : Chars, ' ' ∉ line →
      parseFields line = (line.dropLast, line.dropLast, line)) ∧
    (matchLines (runAll
      [("A".toList, some ["\n".toList, "\n".toList])]).2).length = 1 := by
  constructor
  · intro line hm
    have h1 : pyFind line ' ' 0 = -1 := pyFind_eq_neg_one line hm
    show (pySlice line 0 (pyFind line ' ' 0),
          pySlice line (pyFind line ' ' 0 + 1)
            (pyFind line ' ' (pyFind line ' ' 0 + 1).toNat),
          pySliceFrom line
            (pyFind line ' ' (pyFind line ' ' 0 + 1).toNat + 1)) = _
    rw [h1]
    norm_num [h1, pySlice_zero_negOne, pySliceFrom_zero]
  · decide

/-- Witness for C10 on the space-free line `abc`: hash and length both
parse to `abc`, the raw path to the whole line. -/
theorem spaceFreeTotalParse_w :
    parseFields "abc\n".toList =
      ("abc".toList, "abc".toList, "abc\n".toList) := by
  rw [spaceFreeTotalParse.1 "abc\n".toList (by decide)]
  decide
